import Mathlib

/-!
Verification development for the qr-forge CLI (JavaScript).

The definitions below are a shallow embedding of the source files of the
repository, translated into Lean:

* `src/lib/utils/qr-builder.js`   — `buildQROptions`, `getOutputFormat`,
  `shouldEmbedLogo`, `getLogoSize`, `DEFAULTS`
* the validators module (`isValidHexColor`, `normalizeHexColor`,
  `isValidNumber`, `isValidFormat`, `isValidLogoFile`, `validateBatchFile`,
  `validateOptions`)
* `src/lib/commands/batch.js`     — `resolveOutputDir`, the per-item batch
  loop of `processBatch`
* `src/lib/commands/generate.js`  — `escapeHtml`, `generateHTMLEmbed`, the
  format dispatch of `generateQR`
* the exit-code rule of the CLI entry handler `handleBatchMode`.

Modelling conventions:

* JavaScript strings are Lean `String`s; option objects become a structure
  whose fields are `Option String` (`none` models `undefined`).
* JavaScript truthiness of an optional string (`undefined` and `""` are
  falsy) is `truthyS`.
* `parseInt(v, 10)` and `Number(v)` are modelled by `parseIntJS` and
  `jsNumber`; `none` models `NaN`.  `jsNumber` covers plain decimal
  literals with optional sign and fraction (the forms reachable from the
  CLI); exponent/hex literals are outside the model.
* File-system state is an explicit map `String → Option String` from paths
  to file contents (`none` = no such regular file).
* Node `path` functions (`isAbsolute`, `extname`, `dirname`, `join`) are
  modelled for POSIX paths; `join` concatenates with a separator and does
  not re-normalize `.`/`..` segments.
* Effects that can throw (encoder, file writes) are modelled by oracles
  (`Nat → Bool`) saying whether the operation for a given item succeeds.
-/

/-- JS truthiness of an optional string: `undefined` and `""` are falsy. -/
def truthyS : Option String → Bool
  | none => false
  | some s => s ≠ ""

/-- JS `a || b` for an optional string `a` with string default `b`. -/
def jsOrS (v : Option String) (d : String) : String :=
  match v with
  | none => d
  | some s => if s = "" then d else s

/-- ASCII whitespace recognized by the leading-trim of `parseInt`/`Number`. -/
def jsWhitespace (c : Char) : Bool :=
  c = ' ' || c = '\t' || c = '\n' || c = '\r'

/-- Numeric value of a list of decimal digits (most significant first). -/
def digitsVal (l : List Char) : Nat :=
  l.foldl (fun a c => a * 10 + (c.toNat - 48)) 0

/-- Model of JS `parseInt(s, 10)`: skip leading whitespace, optional sign,
then the longest leading run of decimal digits; `none` models `NaN`. -/
def parseIntJS (s : String) : Option Int :=
  match s.data.dropWhile jsWhitespace with
  | '-' :: rest =>
    let d := rest.takeWhile Char.isDigit
    if d = [] then none else some (-(digitsVal d : Int))
  | '+' :: rest =>
    let d := rest.takeWhile Char.isDigit
    if d = [] then none else some (digitsVal d : Int)
  | l =>
    let d := l.takeWhile Char.isDigit
    if d = [] then none else some (digitsVal d : Int)

/-- Decimal literal (digits, optional fraction) as a rational; helper for
`jsNumber`.  The value of `ip.fp` is `(ip * 10^k + fp) / 10^k` where `k`
is the number of fraction digits. -/
def parseDecimal (l : List Char) : Option ℚ :=
  let ip := l.takeWhile Char.isDigit
  match l.dropWhile Char.isDigit with
  | [] => if ip = [] then none else some (digitsVal ip : ℚ)
  | '.' :: fp =>
    if fp.all Char.isDigit && (ip ≠ [] || fp ≠ []) then
      some (Rat.divInt (digitsVal ip * 10 ^ fp.length + digitsVal fp) (10 ^ fp.length))
    else none
  | _ => none

/-- Trim ASCII whitespace from both ends of a character list. -/
def trimChars (l : List Char) : List Char :=
  ((l.dropWhile jsWhitespace).reverse.dropWhile jsWhitespace).reverse

/-- Model of JS `Number(s)` on the decimal-literal fragment: trims
whitespace, maps `""` to `0`, parses an optionally signed decimal literal;
`none` models `NaN`. -/
def jsNumber (s : String) : Option ℚ :=
  match trimChars s.data with
  | [] => some 0
  | '-' :: rest => (parseDecimal rest).map (fun q => -q)
  | '+' :: rest => parseDecimal rest
  | l => parseDecimal l

/-- Lowercase a string characterwise (model of JS `toLowerCase` on ASCII). -/
def lowerStr (s : String) : String :=
  String.mk (s.data.map Char.toLower)

/-- Uppercase a string characterwise (model of JS `toUpperCase` on ASCII). -/
def upperStr (s : String) : String :=
  String.mk (s.data.map Char.toUpper)

/-- Split a character list at every occurrence of `sep` (model of JS
`String.prototype.split` with a single-character separator). -/
def splitCh (sep : Char) : List Char → List (List Char)
  | [] => [[]]
  | c :: rest =>
    if c = sep then [] :: splitCh sep rest
    else
      match splitCh sep rest with
      | [] => [[c]]
      | h :: t => (c :: h) :: t

/-! ### Node `path` model (POSIX) -/

/-- Model of Node `path.isAbsolute`. -/
def isAbsolute (p : String) : Bool :=
  match p.data with
  | c :: _ => c = '/'
  | [] => false

/-- Suffix of a character list starting at its last dot, or `[]` when it
has no dot; helper for `extname`. -/
def extFrom : List Char → List Char
  | [] => []
  | c :: rest =>
    let e := extFrom rest
    if e ≠ [] then e
    else if c = '.' then c :: rest
    else []

/-- Model of Node `path.extname`: the extension of the final path
component, ignoring a dot in first position; `"."` and `".."` have no
extension. -/
def extname (p : String) : String :=
  let b := (splitCh '/' p.data).getLastD []
  if b = ['.'] || b = ['.', '.'] then ""
  else
    match b with
    | [] => ""
    | _ :: rest => String.mk (extFrom rest)

/-- Model of Node `path.dirname` (POSIX): strip trailing separators, then
drop the final component and the separator before it. -/
def dirname (p : String) : String :=
  match p.data with
  | [] => "."
  | c :: _ =>
    let root := c = '/'
    let r1 := p.data.reverse.dropWhile (fun x => x = '/')
    if r1 = [] then (if root then "/" else ".")
    else
      let r2 := r1.dropWhile (fun x => x ≠ '/')
      if r2 = [] then "."
      else
        let r3 := r2.drop 1
        if r3 = [] then (if root then "/" else ".") else String.mk r3.reverse

/-- Model of Node `path.join` on two segments: concatenate with a single
separator (dot-segment re-normalization is outside the model). -/
def joinPath (a b : String) : String :=
  if a = "" then b
  else if b = "" then a
  else
    String.mk ((a.data.reverse.dropWhile (fun c => c = '/')).reverse
      ++ '/' :: b.data.dropWhile (fun c => c = '/'))

/-! ### Validators module -/

/-- A hexadecimal digit as accepted by the color regex. -/
def isHexDigit (c : Char) : Bool :=
  ('0' ≤ c && c ≤ '9') || ('a' ≤ c && c ≤ 'f') || ('A' ≤ c && c ≤ 'F')

/-- Source `isValidHexColor`: a `#` followed by exactly 3, 4, 6 or 8 hex digits
(the anchored character-class regex of the source). -/
def isValidHexColor (s : String) : Bool :=
  match s.data with
  | c :: rest =>
    c = '#' && rest.all isHexDigit
      && (rest.length = 3 || rest.length = 4 || rest.length = 6 || rest.length = 8)
  | [] => false

/-- Duplicate every character in place (`.map(c => c + c).join("")`). -/
def hexDouble : List Char → List Char
  | [] => []
  | c :: rest => c :: c :: hexDouble rest

/-- Source `normalizeHexColor`: expand a valid hex color to the 8-digit uppercase
`#RRGGBBAA` form; invalid input falls back to `#000000FF`. -/
def normalizeHexColor (s : String) : String :=
  if isValidHexColor s then
    match s.data with
    | _ :: rest =>
      let hex := rest.map Char.toUpper
      if hex.length = 3 then String.mk ('#' :: (hexDouble hex ++ ['F', 'F']))
      else if hex.length = 4 then String.mk ('#' :: hexDouble hex)
      else if hex.length = 6 then String.mk ('#' :: (hex ++ ['F', 'F']))
      else String.mk ('#' :: hex)
    | [] => "#000000FF"
  else "#000000FF"

/-- A file-system snapshot: maps a path to the contents of the regular
file there, `none` when absent.  `fileExists` is `(fs p).isSome`. -/
def FileSys : Type := String → Option String

/-- The empty file system (no file exists). -/
def fs0 : FileSys := fun _ => none

/-- Source `fileExists`: the path names an existing regular file. -/
def fileExists (fs : FileSys) (p : String) : Bool :=
  (fs p).isSome

/-- Source `isValidLogoFile`: the file exists and its extension is one of the
accepted image extensions. -/
def isValidLogoFile (fs : FileSys) (p : String) : Bool :=
  fileExists fs p &&
    (let ext := lowerStr (extname p)
     ext = ".png" || ext = ".jpg" || ext = ".jpeg" || ext = ".svg" || ext = ".webp")

/-- Source `isValidNumber`: `Number(value)` is not `NaN` and lies in
`[lo, hi]`. -/
def isValidNumber (v : String) (lo hi : ℚ) : Bool :=
  match jsNumber v with
  | none => false
  | some q => decide (lo ≤ q) && decide (q ≤ hi)

/-- Source `isValidFormat`: lowercased format is `png`, `svg` or `terminal`. -/
def isValidFormat (f : String) : Bool :=
  lowerStr f = "png" || lowerStr f = "svg" || lowerStr f = "terminal"

/-- Result of `validateBatchFile`. -/
structure BatchValidation where
  valid : Bool
  lines : List String
  error : Option String
deriving DecidableEq, Repr

/-- Source `validateBatchFile`: the file must exist; its contents are split on
newline, trimmed, and blank lines dropped; an all-blank file is
rejected as empty. -/
def validateBatchFile (fs : FileSys) (p : String) : BatchValidation :=
  match fs p with
  | none => ⟨false, [], some "Batch file not found"⟩
  | some content =>
    let lines := (((splitCh '\n' content.data).map (fun l => String.mk (trimChars l))).filter
      (fun line => line.length > 0))
    if lines.length = 0 then ⟨false, [], some "Batch file is empty"⟩
    else ⟨true, lines, none⟩

/-- CLI options object (the `options` record of commander); `none` models an absent
(`undefined`) field.  The boolean `--html`/`--img` flags play no role in
the verified claims and are omitted. -/
structure CliOptions where
  output : Option String := none
  format : Option String := none
  size : Option String := none
  color : Option String := none
  background : Option String := none
  margin : Option String := none
  logo : Option String := none
  logoSize : Option String := none
  batch : Option String := none
deriving DecidableEq, Repr

/-- Result of `validateOptions`. -/
structure ValidationResult where
  valid : Bool
  errors : List String
deriving DecidableEq, Repr

/-- Error message for a missing data argument. -/
def dataMsg : String :=
  "Data argument is required (or use --batch for batch processing)"

/-- Error message for an invalid QR color. -/
def colorMsg (v : String) : String :=
  "Invalid color format: \"" ++ v ++ "\". Use hex format (#RGB, #RRGGBB, or #RRGGBBAA)"

/-- Error message for an invalid background color. -/
def backgroundMsg (v : String) : String :=
  "Invalid background format: \"" ++ v ++ "\". Use hex format (#RGB, #RRGGBB, or #RRGGBBAA)"

/-- Error message for an out-of-range size. -/
def sizeMsg (v : String) : String :=
  "Invalid size: \"" ++ v ++ "\". Must be between 50 and 2000 pixels"

/-- Error message for an out-of-range margin. -/
def marginMsg (v : String) : String :=
  "Invalid margin: \"" ++ v ++ "\". Must be between 0 and 20"

/-- Error message for an unsupported format. -/
def formatMsg (v : String) : String :=
  "Invalid format: \"" ++ v ++ "\". Supported formats: png, svg"

/-- Error message for an invalid logo file. -/
def logoMsg (v : String) : String :=
  "Invalid logo file: \"" ++ v ++ "\". File must exist and be a valid image (png, jpg, svg, webp)"

/-- Error message for an out-of-range logo size. -/
def logoSizeMsg (v : String) : String :=
  "Invalid logo size: \"" ++ v ++ "\". Must be between 5% and 40%"

/-- Source `validateOptions`: checks every rule, pushing one error string per
violated rule, and reports `valid` exactly when no error was pushed. -/
def validateOptions (fs : FileSys) (o : CliOptions) (data : Option String) : ValidationResult :=
  let errors :=
    (if !truthyS data && !truthyS o.batch then [dataMsg] else [])
    ++ (if truthyS o.color && !isValidHexColor (o.color.getD "") then
          [colorMsg (o.color.getD "")] else [])
    ++ (if truthyS o.background && !isValidHexColor (o.background.getD "") then
          [backgroundMsg (o.background.getD "")] else [])
    ++ (if truthyS o.size && !isValidNumber (o.size.getD "") 50 2000 then
          [sizeMsg (o.size.getD "")] else [])
    ++ (if truthyS o.margin && !isValidNumber (o.margin.getD "") 0 20 then
          [marginMsg (o.margin.getD "")] else [])
    ++ (if truthyS o.format && !isValidFormat (o.format.getD "") then
          [formatMsg (o.format.getD "")] else [])
    ++ (if truthyS o.logo && !isValidLogoFile fs (o.logo.getD "") then
          [logoMsg (o.logo.getD "")] else [])
    ++ (if truthyS o.logoSize && !isValidNumber (o.logoSize.getD "") 5 40 then
          [logoSizeMsg (o.logoSize.getD "")] else [])
    ++ (if truthyS o.batch then
          (let br := validateBatchFile fs (o.batch.getD "")
           if !br.valid then [br.error.getD ""] else [])
        else [])
  ⟨errors.length = 0, errors⟩

/-! ### QR option builder (`src/lib/utils/qr-builder.js`) -/

/-- The `DEFAULTS` object of the builder module. -/
structure QRDefaults where
  width : Int
  margin : Int
  darkColor : String
  lightColor : String
  errorCorrectionLevel : String

/-- Default QR configuration values. -/
def DEFAULTS : QRDefaults :=
  ⟨300, 4, "#000000FF", "#FFFFFFFF", "M"⟩

/-- Encoder parameter bundle produced by `buildQROptions`.  `margin` and
`width` are `Option Int` because `parseInt` of a non-numeric CLI string
is `NaN` (`none`). -/
structure QROptions where
  errorCorrectionLevel : String
  margin : Option Int
  width : Option Int
  colorDark : String
  colorLight : String
deriving DecidableEq, Repr

/-- Source `buildQROptions`: error-correction level `H` exactly when a logo is
requested, `parseInt`ed margin/size with defaults, normalized colors. -/
def buildQROptions (c : CliOptions) : QROptions :=
  { errorCorrectionLevel := if truthyS c.logo then "H" else DEFAULTS.errorCorrectionLevel
  , margin := if truthyS c.margin then parseIntJS (c.margin.getD "") else some DEFAULTS.margin
  , width := if truthyS c.size then parseIntJS (c.size.getD "") else some DEFAULTS.width
  , colorDark := normalizeHexColor (jsOrS c.color DEFAULTS.darkColor)
  , colorLight := normalizeHexColor (jsOrS c.background DEFAULTS.lightColor) }

/-- Source `getOutputFormat`: explicit `--format` (lowercased) wins; otherwise a
recognized extension of `--output` (last dot-separated segment); else
`png`. -/
def getOutputFormat (c : CliOptions) : String :=
  if truthyS c.format then lowerStr (c.format.getD "")
  else if truthyS c.output then
    let ext := lowerStr (String.mk ((splitCh '.' (c.output.getD "").data).getLastD []))
    if ext = "png" || ext = "svg" then ext else "png"
  else "png"

/-- Source `shouldEmbedLogo`: a logo was requested and the output format is
`png`. -/
def shouldEmbedLogo (c : CliOptions) : Bool :=
  truthyS c.logo && getOutputFormat c = "png"

/-- Source `getLogoSize`: `parseInt(options.logoSize, 10) || 20`, clamped to
`[5, 40]`, divided by 100. -/
def getLogoSize (c : CliOptions) : ℚ :=
  let parsed : Option Int :=
    match c.logoSize with
    | none => none
    | some s => parseIntJS s
  let size : Int :=
    match parsed with
    | none => 20
    | some n => if n = 0 then 20 else n
  Rat.divInt (min (max size 5) 40) 100

/-! ### Single-item generation (`src/lib/commands/generate.js`) -/

/-- Which write path `generateQR` (or one batch iteration) takes. -/
inductive WriteAction where
  | svg
  | pngWithLogo
  | png
deriving DecidableEq, Repr

/-- Format dispatch of `generateQR`: `svg` branch first, else
`generatePNG`, which embeds the logo exactly when `shouldEmbedLogo`. -/
def generateAction (c : CliOptions) : WriteAction :=
  if getOutputFormat c = "svg" then WriteAction.svg
  else if shouldEmbedLogo c then WriteAction.pngWithLogo
  else WriteAction.png

/-- Per-item dispatch of the `processBatch` loop: the `svg` branch first,
else the `uselogo (= shouldEmbedLogo options)` branch, else plain png. -/
def batchItemAction (c : CliOptions) : WriteAction :=
  if getOutputFormat c = "svg" then WriteAction.svg
  else if shouldEmbedLogo c then WriteAction.pngWithLogo
  else WriteAction.png

/-- The apostrophe character (codepoint 39). -/
def aposChar : Char := Char.ofNat 39

/-- One replacement step of the global regex replace in `escapeHtml`. -/
def escapeChars : List Char → List Char
  | [] => []
  | c :: rest =>
    (if c = '&' then "&amp;".data
     else if c = '<' then "&lt;".data
     else if c = '>' then "&gt;".data
     else if c = '"' then "&quot;".data
     else if c = aposChar then "&#39;".data
     else [c]) ++ escapeChars rest

/-- Source `escapeHtml`: replace the five HTML special characters by their
entities. -/
def escapeHtml (s : String) : String :=
  String.mk (escapeChars s.data)

/-- HTML template text before the `max-width` size interpolation. -/
def htmlChunkA : String :=
  "<!DOCTYPE html>\n        <html lang=\"en\">\n            <head>\n                <meta charset=\"UTF-8\">\n                <meta name=\"viewport\" content=\"width=device-width, initial-scale=1.0\">\n                <title>QR Code - qr-forge</title>\n                <style>\n                    body \x7b\n                        display: flex;\n                        justify-content: center;\n                        align-items: center;\n                        min-height: 100vh;\n                        margin: 0;\n                        background: #f5f5f5;\n                        font-family: -apple-system, BlinkMacSystemFont, \x27Segoe UI\x27, Roboto, sans-serif;\n                    \x7d\n                    .qr-container \x7b\n                        background: white;\n                        padding: 24px;\n                        border-radius: 12px;\n                        box-shadow: 0 4px 24px rgba(0,0,0,0.1);\n                        text-align: center;\n                    \x7d\n                    .qr-container img \x7b\n                        display: block;\n                        margin: 0 auto 16px;\n                    \x7d\n                    .qr-data \x7b\n                        color: #666;\n                        font-size: 14px;\n                        word-break: break-all;\n                        max-width: "

/-- HTML template text between the size and data-URL interpolations. -/
def htmlChunkB : String :=
  "px;\n                    \x7d\n                    .qr-footer \x7b\n                        margin-top: 16px;\n                        color: #999;\n                        font-size: 12px;\n                    \x7d\n                </style>\n            </head>\n            <body>\n                <div class=\"qr-container\">\n                <img src=\""

/-- HTML template text between the data URL and the width attribute. -/
def htmlChunkC : String :=
  "\" alt=\"QR Code\" width=\""

/-- HTML template text between the width and height attributes. -/
def htmlChunkD : String :=
  "\" height=\""

/-- HTML template text between the img tag and the escaped data. -/
def htmlChunkE : String :=
  "\">\n                <p class=\"qr-data\">"

/-- HTML template text after the escaped data. -/
def htmlChunkF : String :=
  "</p>\n                <p class=\"qr-footer\">Generated with qr-forge</p>\n                </div>\n            </body>\n        </html>\n    "

/-- Source `generateHTMLEmbed`: the template literal of the source with
`size = options.size || 300`, the data URL of the encoder (opaque, passed in),
and the escaped data interpolated. -/
def generateHTMLEmbed (dataUrl : String) (data : String) (c : CliOptions) : String :=
  let size := jsOrS c.size "300"
  htmlChunkA ++ size ++ htmlChunkB ++ dataUrl ++ htmlChunkC ++ size
    ++ htmlChunkD ++ size ++ htmlChunkE ++ escapeHtml data ++ htmlChunkF

/-! ### Batch processing (`src/lib/commands/batch.js`, CLI entry) -/

/-- Source `DEFAULT_EXPORT_DIR = path.join(os.homedir(), ".qr-forge", "exports")`,
with the home directory as an explicit parameter. -/
def defaultExportDir (home : String) : String :=
  joinPath (joinPath home ".qr-forge") "exports"

/-- Source `resolveOutputDir`: `Date.now()` is the `timestamp` parameter. -/
def resolveOutputDir (home : String) (output : Option String) (batchName : String)
    (timestamp : Nat) : String :=
  let folderName := batchName ++ "_batch_" ++ toString timestamp
  if !truthyS output then joinPath (defaultExportDir home) folderName
  else
    let o := output.getD ""
    if (extname o).length > 0 then
      let dir := dirname o
      if isAbsolute dir then dir else joinPath (defaultExportDir home) dir
    else if isAbsolute o then o
    else joinPath (defaultExportDir home) o

/-- Model of `String(n).padStart(3, "0")`. -/
def pad3 (n : Nat) : String :=
  let s := toString n
  if s.length ≥ 3 then s else String.mk (List.replicate (3 - s.length) '0') ++ s

/-- Counters and per-item trace of the batch loop.  Each trace entry is
`(data line, output file name, succeeded?)`, in processing order. -/
structure BatchLoopResult where
  success : Nat
  failed : Nat
  trace : List (String × String × Bool)
deriving DecidableEq, Repr

/-- The `for` loop of `processBatch` from index `i`: each item is
processed in order inside a `try`/`catch`; the oracle `ok` says whether
the encode-and-write for an index succeeds (models thrown errors). -/
def processItemsFrom (format : String) (ok : Nat → Bool) : Nat → List String → BatchLoopResult
  | _, [] => ⟨0, 0, []⟩
  | i, d :: rest =>
    let filename := "qr-" ++ pad3 (i + 1) ++ "." ++ format
    let r := processItemsFrom format ok (i + 1) rest
    if ok i then ⟨r.success + 1, r.failed, (d, filename, true) :: r.trace⟩
    else ⟨r.success, r.failed + 1, (d, filename, false) :: r.trace⟩

/-- Model of `path.basename(p, path.extname(p))`: final path component with its
extension stripped. -/
def basenameNoExt (p : String) : String :=
  let b := (splitCh '/' p.data).getLastD []
  let e := extname p
  String.mk (b.take (b.length - e.length))

/-- Return value of `processBatch`. -/
structure ProcessBatchOutcome where
  success : Nat
  failed : Nat
  outputDir : String
deriving DecidableEq, Repr

/-- Source `processBatch`: validate the batch file, resolve the output
directory, ensure it exists (`mkdirOk` models `ensureDirectory`), then
run the per-item loop.  Thrown errors become `Except.error`. -/
def processBatch (fs : FileSys) (home : String) (batchFilePath : String) (o : CliOptions)
    (ok : Nat → Bool) (timestamp : Nat) (mkdirOk : Bool) : Except String ProcessBatchOutcome :=
  let validation := validateBatchFile fs batchFilePath
  if !validation.valid then Except.error (validation.error.getD "")
  else
    let format := getOutputFormat o
    let batchFileName := basenameNoExt batchFilePath
    let outputDir := resolveOutputDir home o.output batchFileName timestamp
    if !mkdirOk then Except.error ("Failed to create output directory: " ++ outputDir)
    else
      let r := processItemsFrom format ok 0 validation.lines
      Except.ok ⟨r.success, r.failed, outputDir⟩

/-- Source `handleBatchMode` (CLI entry): exit code 1 when any item failed,
otherwise the process terminates normally with exit code 0. -/
def handleBatchModeExit (r : ProcessBatchOutcome) : Nat :=
  if r.failed > 0 then 1 else 0

/-! ### Claim-side (specification) definitions

The following definitions restate, in the words of the spec, the behavior
the claims assert; the theorems below compare them with the source
embeddings above. -/

/-- Spec reading of color normalization: classify a candidate by its
digit count; 3-digit forms double each digit and append alpha `FF`,
4-digit forms double every digit including alpha, 6-digit forms append
`FF`, 8-digit forms pass through; everything else is opaque black. -/
def normalizeHexColorSpec (s : String) : String :=
  match s.data with
  | c :: rest =>
    if c = '#' && rest.all isHexDigit then
      let u := rest.map Char.toUpper
      if rest.length = 3 then String.mk ('#' :: (hexDouble u ++ ['F', 'F']))
      else if rest.length = 4 then String.mk ('#' :: hexDouble u)
      else if rest.length = 6 then String.mk ('#' :: (u ++ ['F', 'F']))
      else if rest.length = 8 then String.mk ('#' :: u)
      else "#000000FF"
    else "#000000FF"
  | [] => "#000000FF"

/-- Spec reading of batch-file cleaning: the lines of the file split on
newline, trimmed, with empty results removed, in original order. -/
def cleanLines (content : String) : List String :=
  (((splitCh '\n' content.data).map trimChars).filter (fun l => l ≠ [])).map
    (fun l => String.mk l)

/-- The nine validation rules, as booleans, in the order the spec lists
them: missing data, bad color, bad background, bad size, bad margin, bad
format, bad logo file, bad logo size, bad batch file. -/
def ruleViolations (fs : FileSys) (o : CliOptions) (data : Option String) : List Bool :=
  [ !truthyS data && !truthyS o.batch
  , truthyS o.color && !isValidHexColor (o.color.getD "")
  , truthyS o.background && !isValidHexColor (o.background.getD "")
  , truthyS o.size && !isValidNumber (o.size.getD "") 50 2000
  , truthyS o.margin && !isValidNumber (o.margin.getD "") 0 20
  , truthyS o.format && !isValidFormat (o.format.getD "")
  , truthyS o.logo && !isValidLogoFile fs (o.logo.getD "")
  , truthyS o.logoSize && !isValidNumber (o.logoSize.getD "") 5 40
  , truthyS o.batch && !(validateBatchFile fs (o.batch.getD "")).valid ]

/-- The directory implied by a given `--output` value, per the spec: its
parent directory if the value has a file extension, else the value
itself, made absolute against the default export directory when
relative. -/
def impliedOutputBase (home : String) (o : String) : String :=
  let d := if extname o ≠ "" then dirname o else o
  if isAbsolute d then d else joinPath (defaultExportDir home) d

/-- C1 as claimed: the resolved batch output directory is always the
per-run subfolder `batchName_batch_timestamp`, placed inside the default
export directory or inside the directory implied by the output value. -/
def claimBatchOutputDir (home : String) (output : Option String) (batchName : String)
    (timestamp : Nat) : String :=
  let folderName := batchName ++ "_batch_" ++ toString timestamp
  let base :=
    if truthyS output then impliedOutputBase home (output.getD "")
    else defaultExportDir home
  joinPath base folderName

/-- C1 amended: the per-run subfolder is created only when no output is
given; a given output value is used as the implied directory itself,
with no per-run subfolder. -/
def amendedBatchOutputDir (home : String) (output : Option String) (batchName : String)
    (timestamp : Nat) : String :=
  if truthyS output then impliedOutputBase home (output.getD "")
  else joinPath (defaultExportDir home) (batchName ++ "_batch_" ++ toString timestamp)

/-- The HTML-entity table of the claim: each special character and its
replacement. -/
def htmlEntities : List (Char × String) :=
  [('&', "&amp;"), ('<', "&lt;"), ('>', "&gt;"), ('"', "&quot;"), (aposChar, "&#39;")]

/-- Spec reading of HTML escaping: every occurrence of a character in
the entity table is replaced by its entity, all other characters are
left unchanged. -/
def escapeHtmlSpec (s : String) : String :=
  s.data.foldr (fun c acc => ((htmlEntities.lookup c).getD (String.singleton c)) ++ acc) ""

/-- Everything `generateHTMLEmbed` emits before the escaped data: the
document head and styles with the size interpolated, and the image tag
with the data URL and size attributes. -/
def htmlDocBeforeData (dataUrl size : String) : String :=
  htmlChunkA ++ size ++ htmlChunkB ++ dataUrl ++ htmlChunkC ++ size
    ++ htmlChunkD ++ size ++ htmlChunkE

/-- Everything `generateHTMLEmbed` emits after the escaped data. -/
def htmlDocAfterData : String :=
  htmlChunkF

/-! ### Helper lemmas -/

/-- `String.append` is concatenation of the underlying character lists. -/
theorem string_mk_append (a b : List Char) : String.mk a ++ String.mk b = String.mk (a ++ b) :=
  rfl

/-- Associativity of string append. -/
theorem string_append_assoc (a b c : String) : a ++ b ++ c = a ++ (b ++ c) := by
  cases a with
  | mk la =>
    cases b with
    | mk lb =>
      cases c with
      | mk lc => exact congrArg String.mk (List.append_assoc la lb lc)

/-- A string has positive length exactly when it is non-empty. -/
theorem string_length_pos_iff (s : String) : 0 < s.length ↔ s ≠ "" := by
  cases s with
  | mk l =>
    cases l with
    | nil => simp [String.length]
    | cons c t => simp [String.length, String.ext_iff]

/-! ### Claim theorems -/

/-- C2: for every options object, the encoder parameters built by
`buildQROptions` carry error-correction level `H` exactly when a logo is
requested (a JS-truthy `options.logo`), and the fixed default `M`
otherwise, regardless of any other input. -/
theorem claim_C2 (c : CliOptions) :
    (buildQROptions c).errorCorrectionLevel = (if truthyS c.logo then "H" else "M") :=
  rfl

/-- C2 witness: a concrete logo request yields `H`; no logo yields `M`. -/
theorem claim_C2_witness :
    (buildQROptions { logo := some "logo.png" }).errorCorrectionLevel = "H"
    ∧ (buildQROptions {}).errorCorrectionLevel = "M" := by
  refine ⟨(claim_C2 { logo := some "logo.png" }).trans (by decide),
    (claim_C2 {}).trans (by decide)⟩

/-- C3: in both the single-item path (`generateQR`/`generatePNG`) and the
batch per-item path, the logo is composited exactly when a logo is
requested and the resolved output format is `png`; when the resolved
format is `svg`, the svg branch is taken and a requested logo is
silently dropped. -/
theorem claim_C3 (c : CliOptions) :
    (generateAction c = WriteAction.pngWithLogo
      ↔ (truthyS c.logo = true ∧ getOutputFormat c = "png"))
    ∧ (batchItemAction c = WriteAction.pngWithLogo
      ↔ (truthyS c.logo = true ∧ getOutputFormat c = "png"))
    ∧ (generateAction c = WriteAction.svg ↔ getOutputFormat c = "svg")
    ∧ (batchItemAction c = WriteAction.svg ↔ getOutputFormat c = "svg") := by
  by_cases hf : getOutputFormat c = "svg" <;>
    by_cases hl : truthyS c.logo = true <;>
      by_cases hp : getOutputFormat c = "png" <;>
        simp_all [generateAction, batchItemAction, shouldEmbedLogo]

/-- C7: for every options object, the logo size fraction returned by
`getLogoSize` lies in the interval `[0.05, 0.40]`. -/
theorem claim_C7 (c : CliOptions) :
    Rat.divInt 5 100 ≤ getLogoSize c ∧ getLogoSize c ≤ Rat.divInt 40 100 := by
  have h : ∀ z : Int,
      Rat.divInt 5 100 ≤ Rat.divInt (min (max z 5) 40) 100
      ∧ Rat.divInt (min (max z 5) 40) 100 ≤ Rat.divInt 40 100 := by
    intro z
    have h5 : (5 : Int) ≤ min (max z 5) 40 := le_min (le_max_right z 5) (by norm_num)
    have h40 : min (max z 5) 40 ≤ 40 := min_le_right _ _
    constructor
    · rw [Rat.divInt_le_divInt (by norm_num) (by norm_num)]
      nlinarith
    · rw [Rat.divInt_le_divInt (by norm_num) (by norm_num)]
      nlinarith
  exact h _

/-- C1 counterexample: with an output option given (an absolute
extension-free directory), `resolveOutputDir` returns that directory
itself, not the claimed per-run `BATCHNAME_batch_TIMESTAMP` subfolder
inside it. -/
theorem claim_C1_counterexample :
    resolveOutputDir "/home/user" (some "/tmp/out") "urls" 1000 = "/tmp/out"
    ∧ claimBatchOutputDir "/home/user" (some "/tmp/out") "urls" 1000
      = "/tmp/out/urls_batch_1000"
    ∧ resolveOutputDir "/home/user" (some "/tmp/out") "urls" 1000
      ≠ claimBatchOutputDir "/home/user" (some "/tmp/out") "urls" 1000 := by
  decide

/-- C1 amended: the per-run `BATCHNAME_batch_TIMESTAMP` subfolder is used
only when no output option is given (inside the default export
directory); a given output value yields the directory it implies — its
parent when it has a file extension, else the value itself, made
absolute against the default export directory when relative — with no
per-run subfolder. -/
theorem claim_C1_amended (home : String) (output : Option String) (batchName : String)
    (t : Nat) :
    resolveOutputDir home output batchName t = amendedBatchOutputDir home output batchName t := by
  unfold resolveOutputDir amendedBatchOutputDir impliedOutputBase
  by_cases ht : truthyS output
  · by_cases hx : extname (output.getD "") = ""
    · have : ¬ 0 < (extname (output.getD "")).length := by
        rw [string_length_pos_iff]
        simp [hx]
      simp [ht, hx, this]
    · have : 0 < (extname (output.getD "")).length := by
        rw [string_length_pos_iff]; exact hx
      simp [ht, hx, this]
  · simp [ht]

/-- C8 counterexample: `validateOptions` accepts the supplied format
`terminal`, which is neither of the two supported output kinds `png` and
`svg` — so format acceptance is not limited to `png`/`svg`. -/
theorem claim_C8_counterexample :
    (validateOptions fs0 { format := some "terminal" } (some "hello")).valid = true
    ∧ (validateOptions fs0 { format := some "terminal" } (some "hello")).errors = []
    ∧ lowerStr "terminal" ≠ "png" ∧ lowerStr "terminal" ≠ "svg" := by
  decide

/-- Per-item behavior of the batch loop, for any starting index: every
line is attempted in order, the counters partition the lines, and each
outcome of every item is exactly the verdict of the oracle for its index. -/
theorem processItemsFrom_spec (format : String) (ok : Nat → Bool) :
    ∀ (lines : List String) (i : Nat),
      (processItemsFrom format ok i lines).trace.map (fun e => e.1) = lines
      ∧ (processItemsFrom format ok i lines).success
          + (processItemsFrom format ok i lines).failed = lines.length
      ∧ (processItemsFrom format ok i lines).trace.map (fun e => e.2.2)
          = (List.range lines.length).map (fun j => ok (i + j)) := by
  intro lines
  induction lines with
  | nil => intro i; simp [processItemsFrom]
  | cons d rest ih =>
    intro i
    obtain ⟨h1, h2, h3⟩ := ih (i + 1)
    have hfun : (fun j => ok (i + Nat.succ j)) = (fun j => ok (i + 1 + j)) :=
      funext (fun j => congrArg ok (by omega))
    have hrange : (List.range (rest.length + 1)).map (fun j => ok (i + j))
        = ok i :: (List.range rest.length).map (fun j => ok (i + 1 + j)) := by
      rw [List.range_succ_eq_map, List.map_cons, List.map_map]
      have hcomp : ((fun j => ok (i + j)) ∘ Nat.succ) = (fun j => ok (i + 1 + j)) :=
        funext (fun j => congrArg ok (by omega))
      rw [hcomp, Nat.add_zero]
    by_cases ho : ok i = true
    · refine ⟨?_, ?_, ?_⟩
      · simp [processItemsFrom, ho, h1]
      · simp only [processItemsFrom, ho, if_true, List.length_cons]
        omega
      · simp only [processItemsFrom, ho, if_true, List.length_cons, List.map_cons, hrange, h3]
    · have ho2 : ok i = false := by
        cases hoo : ok i
        · rfl
        · exact absurd hoo ho
      refine ⟨?_, ?_, ?_⟩
      · simp [processItemsFrom, ho2, h1]
      · simp only [processItemsFrom, ho2, Bool.false_eq_true, if_false, List.length_cons]
        omega
      · simp only [processItemsFrom, ho2, Bool.false_eq_true, if_false, List.length_cons,
          List.map_cons, hrange, h3]

/-- C4: for every batch run over the validated lines, items are processed
strictly sequentially in file order (the trace lists every line, in
order, with its own outcome — a failed item never prevents later ones),
the counters satisfy `success + failed = N`, and `handleBatchMode` exits
with code 1 exactly when some item failed and 0 exactly on full
success. -/
theorem claim_C4 (format outDir : String) (ok : Nat → Bool) (lines : List String) :
    (processItemsFrom format ok 0 lines).success
        + (processItemsFrom format ok 0 lines).failed = lines.length
    ∧ (processItemsFrom format ok 0 lines).trace.map (fun e => e.1) = lines
    ∧ (processItemsFrom format ok 0 lines).trace.map (fun e => e.2.2)
        = (List.range lines.length).map ok
    ∧ (handleBatchModeExit
        ⟨(processItemsFrom format ok 0 lines).success,
          (processItemsFrom format ok 0 lines).failed, outDir⟩ = 1
        ↔ 0 < (processItemsFrom format ok 0 lines).failed)
    ∧ (handleBatchModeExit
        ⟨(processItemsFrom format ok 0 lines).success,
          (processItemsFrom format ok 0 lines).failed, outDir⟩ = 0
        ↔ (processItemsFrom format ok 0 lines).failed = 0) := by
  obtain ⟨h1, h2, h3⟩ := processItemsFrom_spec format ok lines 0
  refine ⟨h2, h1, ?_, ?_, ?_⟩
  · rw [h3]
    simp
  · by_cases hf : 0 < (processItemsFrom format ok 0 lines).failed <;>
      simp [handleBatchModeExit, hf]
  · by_cases hf0 : (processItemsFrom format ok 0 lines).failed = 0
    · simp [handleBatchModeExit, hf0]
    · have hf : 0 < (processItemsFrom format ok 0 lines).failed := Nat.pos_of_ne_zero hf0
      simp [handleBatchModeExit, hf, hf0]

/-- Filtering nonempty strings after `String.mk` is filtering nonempty
character lists before it. -/
theorem filter_mk_comm (L : List (List Char)) :
    (L.map (fun l => String.mk l)).filter (fun s => s.length > 0)
      = (L.filter (fun l => l ≠ [])).map (fun l => String.mk l) := by
  induction L with
  | nil => rfl
  | cons l L ih =>
    cases l with
    | nil =>
      have h0 : ¬ (0 < (String.mk ([] : List Char)).length) := by decide
      simp [List.filter_cons, h0, ih]
    | cons c t =>
      have h1 : 0 < (String.mk (c :: t)).length := by
        show 0 < (c :: t).length
        simp
      simp [List.filter_cons, h1, ih]

/-- C5: for every batch file contents, the items taken up by processing
are exactly the lines of the file split on newline, trimmed, with empty
results removed, in original order (the batch loop attempts precisely
those, in order); the concrete file `a`, ``, `b`, `   `, `c` yields the
three items `a`, `b`, `c`; and an all-blank file is rejected as
invalid. -/
theorem claim_C5 :
    (∀ content : String,
      (validateBatchFile (fun _ => some content) "batch.txt").lines = cleanLines content
      ∧ ((validateBatchFile (fun _ => some content) "batch.txt").valid = true
          ↔ cleanLines content ≠ [])
      ∧ (∀ ok : Nat → Bool,
          (processItemsFrom "png" ok 0
              (validateBatchFile (fun _ => some content) "batch.txt").lines).trace.map
            (fun e => e.1) = cleanLines content))
    ∧ validateBatchFile (fun _ => some "a\n\nb\n   \nc") "batch.txt"
        = ⟨true, ["a", "b", "c"], none⟩
    ∧ (validateBatchFile (fun _ => some " \n   \n") "batch.txt").valid = false := by
  refine ⟨?_, by decide, by decide⟩
  intro content
  have key : (((splitCh '\n' content.data).map (fun l => String.mk (trimChars l))).filter
      (fun line => line.length > 0)) = cleanLines content := by
    have hmaps : ((splitCh '\n' content.data).map (fun l => String.mk (trimChars l)))
        = (((splitCh '\n' content.data).map trimChars).map (fun l => String.mk l)) := by
      rw [List.map_map]
      rfl
    rw [hmaps, filter_mk_comm]
    rfl
  have hlines : (validateBatchFile (fun _ => some content) "batch.txt").lines
      = cleanLines content := by
    by_cases hz : cleanLines content = [] <;>
      simp [validateBatchFile, key, hz, List.length_eq_zero]
  have hvalid : (validateBatchFile (fun _ => some content) "batch.txt").valid = true
      ↔ cleanLines content ≠ [] := by
    by_cases hz : cleanLines content = [] <;>
      simp [validateBatchFile, key, hz, List.length_eq_zero]
  refine ⟨hlines, hvalid, ?_⟩
  intro ok
  rw [hlines]
  exact (processItemsFrom_spec "png" ok (cleanLines content) 0).1

/-- C6: color normalization agrees everywhere with the claimed digit
classification — valid 3- and 6-digit forms gain alpha `FF` (3-digit
after doubling each digit), 4-digit forms double every digit including
alpha, 8-digit forms pass through uppercased, anything invalid yields
opaque black — and in particular the three quoted examples hold. -/
theorem claim_C6 :
    (∀ s : String, normalizeHexColor s = normalizeHexColorSpec s)
    ∧ normalizeHexColor "#F00" = "#FF0000FF"
    ∧ normalizeHexColor "#F00F" = "#FF0000FF"
    ∧ normalizeHexColor "#1a1a2e" = "#1A1A2EFF" := by
  refine ⟨?_, by decide, by decide, by decide⟩
  intro s
  unfold normalizeHexColor normalizeHexColorSpec isValidHexColor
  cases hd : s.data with
  | nil => simp
  | cons c rest =>
    by_cases hsh : c = '#'
    · by_cases hall : rest.all isHexDigit = true
      · by_cases h3 : rest.length = 3
        · simp [hsh, hall, h3, List.length_map]
        · by_cases h4 : rest.length = 4
          · simp [hsh, hall, h3, h4, List.length_map]
          · by_cases h6 : rest.length = 6
            · simp [hsh, hall, h3, h4, h6, List.length_map]
            · by_cases h8 : rest.length = 8
              · simp [hsh, hall, h3, h4, h6, h8, List.length_map]
              · simp [hsh, hall, h3, h4, h6, h8, List.length_map]
      · simp [hsh, hall]
    · simp [hsh]

/-- Collapsing the nested batch-rule conditional into one condition. -/
theorem nested_ite_singleton (a b : Bool) (m : String) :
    (if a then (if b then [m] else []) else []) = (if a && b then [m] else []) := by
  cases a <;> cases b <;> rfl

/-- The length contributed by one conditional error entry. -/
theorem ite_singleton_length (c : Bool) (m : String) :
    (if c then [m] else []).length = (if c then 1 else 0) := by
  cases c <;> rfl

/-- C9: option validation never short-circuits — for every combination of
violated rules the error list contains exactly one entry per violated
rule, and the `valid` flag is true exactly when the error list is
empty. -/
theorem claim_C9 (fs : FileSys) (o : CliOptions) (data : Option String) :
    (validateOptions fs o data).errors.length
        = ((ruleViolations fs o data).filter (fun b => b)).length
    ∧ ((validateOptions fs o data).valid = true ↔ (validateOptions fs o data).errors = []) := by
  constructor
  · simp only [validateOptions, ruleViolations, nested_ite_singleton, List.length_append,
      ite_singleton_length]
    generalize (!truthyS data && !truthyS o.batch) = b1
    generalize (truthyS o.color && !isValidHexColor (o.color.getD "")) = b2
    generalize (truthyS o.background && !isValidHexColor (o.background.getD "")) = b3
    generalize (truthyS o.size && !isValidNumber (o.size.getD "") 50 2000) = b4
    generalize (truthyS o.margin && !isValidNumber (o.margin.getD "") 0 20) = b5
    generalize (truthyS o.format && !isValidFormat (o.format.getD "")) = b6
    generalize (truthyS o.logo && !isValidLogoFile fs (o.logo.getD "")) = b7
    generalize (truthyS o.logoSize && !isValidNumber (o.logoSize.getD "") 5 40) = b8
    generalize (truthyS o.batch && !(validateBatchFile fs (o.batch.getD "")).valid) = b9
    cases b1 <;> cases b2 <;> cases b3 <;> cases b4 <;> cases b5 <;> cases b6 <;>
      cases b7 <;> cases b8 <;> cases b9 <;> rfl
  · have h : ∀ E : List String, (decide (E.length = 0) = true) ↔ E = [] := by
      intro E
      simp [List.length_eq_zero]
    exact h _

/-- C8 amended: for supplied (non-empty) size, margin and format values
whose numeric coercions are `q` and `r`, validation emits the size error
exactly when `q` is outside `[50, 2000]`, the margin error exactly when
`r` is outside `[0, 20]`, and the format error exactly when the
lowercased format is none of `png`, `svg`, `terminal` (the source also
accepts the `terminal` preview format, unlike the claimed png/svg-only
rule); `valid` holds exactly when all three rules pass. -/
theorem claim_C8_amended (s m f : String) (q r : ℚ)
    (hq : jsNumber s = some q) (hr : jsNumber m = some r)
    (hs : s ≠ "") (hm : m ≠ "") (hf : f ≠ "") :
    (validateOptions fs0 { size := some s, margin := some m, format := some f }
        (some "data")).errors
      = ((if 50 ≤ q ∧ q ≤ 2000 then [] else [sizeMsg s])
          ++ (if 0 ≤ r ∧ r ≤ 20 then [] else [marginMsg m])
          ++ (if lowerStr f = "png" ∨ lowerStr f = "svg" ∨ lowerStr f = "terminal"
              then [] else [formatMsg f]))
    ∧ ((validateOptions fs0 { size := some s, margin := some m, format := some f }
        (some "data")).valid = true
      ↔ ((50 ≤ q ∧ q ≤ 2000) ∧ (0 ≤ r ∧ r ≤ 20)
          ∧ (lowerStr f = "png" ∨ lowerStr f = "svg" ∨ lowerStr f = "terminal"))) := by
  have hb1 : isValidNumber s 50 2000 = decide (50 ≤ q ∧ q ≤ 2000) := by
    simp [isValidNumber, hq, Bool.decide_and]
  have hb2 : isValidNumber m 0 20 = decide (0 ≤ r ∧ r ≤ 20) := by
    simp [isValidNumber, hr, Bool.decide_and]
  have hb3 : isValidFormat f
      = decide (lowerStr f = "png" ∨ lowerStr f = "svg" ∨ lowerStr f = "terminal") := by
    simp [isValidFormat, Bool.decide_or, Bool.or_assoc]
  by_cases H1 : 50 ≤ q ∧ q ≤ 2000 <;> by_cases H2 : 0 ≤ r ∧ r ≤ 20 <;>
    by_cases H3 : lowerStr f = "png" ∨ lowerStr f = "svg" ∨ lowerStr f = "terminal" <;>
      simp [validateOptions, truthyS, hs, hm, hf, hb1, hb2, hb3, H1, H2, H3]

/-- C8 witness: size `49` and margin `-1` are each rejected with their
own error while format `TERMINAL` passes, matching the amended rule at a
concrete input. -/
theorem claim_C8_witness :
    (validateOptions fs0 { size := some "49", margin := some "-1", format := some "TERMINAL" }
        (some "data")).errors = [sizeMsg "49", marginMsg "-1"]
    ∧ ¬ (50 ≤ (49 : ℚ) ∧ (49 : ℚ) ≤ 2000) := by
  have h := claim_C8_amended "49" "-1" "TERMINAL" 49 (-1) (by decide) (by decide)
    (by decide) (by decide) (by decide)
  refine ⟨?_, by decide⟩
  rw [h.1]
  decide

/-- The one-character replacement of `escapeHtml` agrees with the entity
table lookup of the claim. -/
theorem escape_step_eq (c : Char) :
    ((htmlEntities.lookup c).getD (String.singleton c))
      = String.mk (if c = '&' then "&amp;".data
          else if c = '<' then "&lt;".data
          else if c = '>' then "&gt;".data
          else if c = '"' then "&quot;".data
          else if c = aposChar then "&#39;".data
          else [c]) := by
  by_cases h1 : c = '&'
  · subst h1; rfl
  · by_cases h2 : c = '<'
    · subst h2; rfl
    · by_cases h3 : c = '>'
      · subst h3; rfl
      · by_cases h4 : c = '"'
        · subst h4; rfl
        · by_cases h5 : c = aposChar
          · subst h5; rfl
          · have n1 : (c == ('&' : Char)) = false := beq_eq_false_iff_ne.mpr h1
            have n2 : (c == ('<' : Char)) = false := beq_eq_false_iff_ne.mpr h2
            have n3 : (c == ('>' : Char)) = false := beq_eq_false_iff_ne.mpr h3
            have n4 : (c == ('"' : Char)) = false := beq_eq_false_iff_ne.mpr h4
            have n5 : (c == aposChar) = false := beq_eq_false_iff_ne.mpr h5
            simp [htmlEntities, List.lookup, n1, n2, n3, n4, n5, h1, h2, h3, h4, h5,
              String.singleton, String.push]

/-- Lemma: `escapeHtml` computes exactly the claimed entity replacement. -/
theorem escapeHtml_eq_spec (s : String) : escapeHtml s = escapeHtmlSpec s := by
  cases s with
  | mk l =>
    show String.mk (escapeChars l)
      = l.foldr (fun c acc => ((htmlEntities.lookup c).getD (String.singleton c)) ++ acc) ""
    induction l with
    | nil => rfl
    | cons c t ih =>
      show String.mk ((if c = '&' then "&amp;".data
          else if c = '<' then "&lt;".data
          else if c = '>' then "&gt;".data
          else if c = '"' then "&quot;".data
          else if c = aposChar then "&#39;".data
          else [c]) ++ escapeChars t) = _
      rw [List.foldr_cons, ← ih, escape_step_eq, string_mk_append]

/-- C10: for every data string (and any data URL and options), the HTML
document produced by `generateHTMLEmbed` is the fixed template around
the data text escaped per the entity table — `&`, `<`, `>`, `"` and the
apostrophe become `&amp;`, `&lt;`, `&gt;`, `&quot;`, `&#39;`, every
other character is unchanged. -/
theorem claim_C10 (dataUrl data : String) (c : CliOptions) :
    generateHTMLEmbed dataUrl data c
      = htmlDocBeforeData dataUrl (jsOrS c.size "300") ++ escapeHtmlSpec data ++ htmlDocAfterData := by
  unfold generateHTMLEmbed htmlDocBeforeData htmlDocAfterData
  rw [← escapeHtml_eq_spec]
